import Mathlib

set_option maxHeartbeats 1000000
set_option maxRecDepth 4000

/-!
Verification of the pgbench benchmark-analysis scripts
(`parse_pgbench_csv.py`, `analyze_scaling.py`, `plot.py`,
`plot_candlestick.py`, `plot_stats.py`) against their specification.

The Python code is shallowly embedded:
* a filename stem is represented by its list of `-`-separated segments
  (`parts = filename.split('-')`; the stem itself is always
  `String.intercalate "-" parts`, since joining the split parts with the
  separator reproduces the stem);
* file content is a `List Char`;
* Python `None`-able values are `Option`s; a caught exception
  (`parse_pgbench_file` returning `None`) is the `none` of an outer `Option`;
* Python floats are modelled as exact rationals `ℚ`; `np.std`'s square root
  is taken in `ℝ`;
* the fixed regular expressions of the script (each a literal prefix, a
  greedy one-or-more character class capture, and a literal suffix) are run
  by a small search engine `reSearch` with Python `re.search` semantics
  (leftmost position first, greedy capture with backtracking).
-/

namespace PgBench

/-- Python `str.isdigit` for ASCII-digit filename segments: nonempty and all
decimal digits.  (Unicode digit categories accepted by Python are outside the
modelled input space.) -/
def isDigits (s : String) : Bool :=
  !s.data.isEmpty && s.data.all (fun c => c.isDigit)

/-- Numeric value of a list of decimal digit characters. -/
def digitsVal (l : List Char) : Nat :=
  l.foldl (fun a c => a * 10 + (c.toNat - 48)) 0

/-- Numeric value of an all-digit segment. -/
def segVal (s : String) : Int :=
  (digitsVal s.data : Int)

/-- Python `int(seg)` on a filename segment, `none` when it raises
`ValueError`.  Segments come from splitting on `-`, so they never contain a
minus sign; a leading `+` is accepted by `int`.  (Surrounding whitespace and
`_` digit separators, which `int` also tolerates, are outside the modelled
input space.) -/
def pyIntSeg (s : String) : Option Int :=
  if isDigits s then some (segVal s)
  else
    match s.data with
    | '+' :: rest =>
      if !rest.isEmpty && rest.all (fun c => c.isDigit) then
        some (digitsVal rest : Int)
      else none
    | _ => none

/-- The six filename-derived fields of the record built by
`parse_pgbench_file` (`parse_pgbench_csv.py` lines 24-64). -/
structure FilenameFields where
  test_type : String
  clients : Option Int
  jobs : Option Int
  threshold : Option Int
  version : String
  run_number : Option Int
deriving DecidableEq, Repr

/-- The fallback record of `parse_pgbench_file` (lines 49-64): the whole stem
becomes `test_type`, the structured fields are null and the version is
`"unknown"`.  The stem is recovered from the segments as
`'-'.join(parts)`. -/
def fallbackFields (parts : List String) : FilenameFields :=
  { test_type := String.intercalate "-" parts
    clients := none
    jobs := none
    threshold := none
    version := "unknown"
    run_number := none }

/-- The marker scan of `parse_pgbench_file` lines 26-30: index of the first
segment equal to `"c"` whose successor segment exists and is all digits. -/
def findCIndex : List String → Option Nat
  | a :: b :: t =>
    if a = "c" ∧ isDigits b then some 0
    else (findCIndex (b :: t)).map (fun n => n + 1)
  | _ => none

/-- The threshold test of lines 38-39 on the found marker index:
`t_index < len(parts) and parts[t_index] == 't' and t_index + 1 < len(parts)
and parts[t_index + 1].isdigit()` with `t_index = c_index + 4`. -/
def thresholdCond (parts : List String) (ci : Nat) : Prop :=
  ci + 4 < parts.length ∧ parts.getD (ci + 4) "" = "t" ∧
    ci + 5 < parts.length ∧ isDigits (parts.getD (ci + 5) "") = true

instance (parts : List String) (ci : Nat) : Decidable (thresholdCond parts ci) := by
  unfold thresholdCond; infer_instance

/-- Lines 33-48, after the `c` marker was found at `ci`: build the structured
fields.  `none` models an `IndexError` on `parts[c_index + 3]` or a
`ValueError` from `int`.  `parts[t_index + 2:-1]` and `parts[c_index + 4:-1]`
are the Python slices up to the second-to-last segment, i.e. `dropLast` then
`drop`; the threshold value `int(parts[t_index + 1])` is guarded by `isdigit`
and cannot raise, so it is taken with `segVal` directly. -/
def parseAtC (parts : List String) (ci : Nat) : Option FilenameFields :=
  (parts.get? (ci + 1)).bind fun clientsSeg =>
    (pyIntSeg clientsSeg).bind fun clientsVal =>
      (parts.get? (ci + 3)).bind fun jobsSeg =>
        (pyIntSeg jobsSeg).bind fun jobsVal =>
          (pyIntSeg (parts.getLastD "")).bind fun runVal =>
            some { test_type := String.intercalate "_" (parts.take ci)
                   clients := some clientsVal
                   jobs := some jobsVal
                   threshold :=
                     if thresholdCond parts ci then some (segVal (parts.getD (ci + 5) ""))
                     else none
                   version :=
                     if thresholdCond parts ci then
                       String.intercalate "-" (parts.dropLast.drop (ci + 6))
                     else String.intercalate "-" (parts.dropLast.drop (ci + 4))
                   run_number := some runVal }

/-- Filename decoding of `parse_pgbench_file` (lines 21-64), on the list of
`-`-separated segments of the stem.  `none` models the `except` path (lines
96-98).  (`run_number = int(parts[-1])` is evaluated after the threshold
branch in the source; exceptions from any of the `int` calls are
indistinguishable in the `Option` result, so the order of the binds is
immaterial.) -/
def parseFilenameData (parts : List String) : Option FilenameFields :=
  if 6 ≤ parts.length then
    match findCIndex parts with
    | none => some (fallbackFields parts)
    | some ci => parseAtC parts ci
  else some (fallbackFields parts)

/-- The optional `-t-<threshold>` segments of the filename grammar. -/
def thrSegs : Option String → List String
  | none => []
  | some ts => ["t", ts]

/-- The filename grammar `<type>-c-<clients>-j-<jobs>[-t-<threshold>]-<version>-<run>`:
the stem's segments decompose into a nonempty type part, the literal `c`
marker, an all-digit clients segment, the literal `j` marker, an all-digit
jobs segment, optionally the literal `t` marker with an all-digit threshold
segment, a nonempty list of version segments and an all-digit run segment. -/
def GrammarMatch (parts T : List String) (cs js : String) (thr : Option String)
    (vps : List String) (rs : String) : Prop :=
  T ≠ [] ∧ vps ≠ [] ∧ isDigits cs = true ∧ isDigits js = true ∧ isDigits rs = true ∧
    thr.all isDigits = true ∧
    parts = T ++ ["c", cs, "j", js] ++ thrSegs thr ++ vps ++ [rs]

instance (parts T : List String) (cs js : String) (thr : Option String)
    (vps : List String) (rs : String) :
    Decidable (GrammarMatch parts T cs js thr vps rs) := by
  unfold GrammarMatch; infer_instance

/-- Checker for `grammarEnd`: the segments after the jobs segment are
`[-t-<threshold>]-<version>-<run>` for a nonempty version. -/
def grammarEnd (tail : List String) : Bool :=
  (decide (2 ≤ tail.length) && isDigits (tail.getLastD "")) ||
    (match tail with
     | a :: ts :: rest =>
       decide (a = "t") && isDigits ts && decide (2 ≤ rest.length) &&
         isDigits (rest.getLastD "")
     | _ => false)

/-- Checker: `rest` is `c-<clients>-j-<jobs>[-t-<threshold>]-<version>-<run>`. -/
def grammarTail (rest : List String) : Bool :=
  match rest with
  | a :: cs :: b :: js :: tail =>
    decide (a = "c") && isDigits cs && decide (b = "j") && isDigits js && grammarEnd tail
  | _ => false

/-- Checker: some nonempty prefix of segments is followed by a suffix
accepted by `grammarTail`. -/
def grammarSuffix : List String → Bool
  | [] => false
  | a :: r => grammarTail (a :: r) || grammarSuffix r

/-- Decision procedure for "the stem matches the filename grammar for some
decomposition". -/
def matchesGrammarB : List String → Bool
  | [] => false
  | _ :: rest => grammarSuffix rest

/-- The stem (given by its segments) matches the filename grammar. -/
def MatchesGrammar (parts : List String) : Prop :=
  ∃ T cs js thr vps rs, GrammarMatch parts T cs js thr vps rs

/-- One of the fixed regular expressions of `parse_pgbench_file` (lines
66-92): a literal prefix, a greedy one-or-more capture over a character
class, and a literal suffix (empty for several patterns). -/
structure RePat where
  pre : List Char
  cls : Char → Bool
  suf : List Char

/-- Does `pre` occur literally at the head of `l`? -/
def headMatches : List Char → List Char → Bool
  | [], _ => true
  | _ :: _, [] => false
  | a :: as, b :: bs => a == b && headMatches as bs

/-- Greedy capture-length backtracking: the largest `k` with `1 ≤ k ≤ fuel`
such that the literal suffix occurs right after the first `k` characters of
`rest`; candidates are tried longest first, exactly as a backtracking regex
engine shortens a greedy `+` one character at a time. -/
def tryLens (rest suf : List Char) : Nat → Option Nat
  | 0 => none
  | k + 1 =>
    if headMatches suf (rest.drop (k + 1)) then some (k + 1)
    else tryLens rest suf k

/-- Match attempt of `pre (cls+) suf` anchored at the current position;
returns the capture group. -/
def tryAt (p : RePat) (l : List Char) : Option (List Char) :=
  if headMatches p.pre l then
    let rest := l.drop p.pre.length
    match tryLens rest p.suf (rest.takeWhile p.cls).length with
    | some k => some (rest.take k)
    | none => none
  else none

/-- `re.search` for the restricted pattern shape: scan positions left to
right, return the first position's capture group. -/
def reSearch (p : RePat) : List Char → Option (List Char)
  | [] => none
  | a :: t =>
    match tryAt p (a :: t) with
    | some cap => some cap
    | none => reSearch p t

/-- `r'scaling factor: (\d+)'` -/
def patScalingFactor : RePat :=
  { pre := "scaling factor: ".data, cls := fun c => c.isDigit, suf := [] }

/-- `r'number of clients: (\d+)'` -/
def patNumClients : RePat :=
  { pre := "number of clients: ".data, cls := fun c => c.isDigit, suf := [] }

/-- `r'number of threads: (\d+)'` -/
def patNumThreads : RePat :=
  { pre := "number of threads: ".data, cls := fun c => c.isDigit, suf := [] }

/-- `r'duration: (\d+) s'` -/
def patDuration : RePat :=
  { pre := "duration: ".data, cls := fun c => c.isDigit, suf := " s".data }

/-- `r'number of transactions actually processed: (\d+)'` -/
def patTransactionsProcessed : RePat :=
  { pre := "number of transactions actually processed: ".data
    cls := fun c => c.isDigit, suf := [] }

/-- `r'number of failed transactions: (\d+)'` -/
def patFailedTransactions : RePat :=
  { pre := "number of failed transactions: ".data, cls := fun c => c.isDigit, suf := [] }

/-- `r'latency average = ([\d.]+) ms'` -/
def patLatencyAvg : RePat :=
  { pre := "latency average = ".data, cls := fun c => c.isDigit || c == '.'
    suf := " ms".data }

/-- `r'initial connection time = ([\d.]+) ms'` -/
def patInitialConnectionTime : RePat :=
  { pre := "initial connection time = ".data, cls := fun c => c.isDigit || c == '.'
    suf := " ms".data }

/-- `r'tps = ([\d.]+) \(without initial connection time\)'` -/
def patTps : RePat :=
  { pre := "tps = ".data, cls := fun c => c.isDigit || c == '.'
    suf := " (without initial connection time)".data }

/-- `r'transaction type: (.+)'`; `.` matches anything but a newline. -/
def patTransactionType : RePat :=
  { pre := "transaction type: ".data, cls := fun c => !(c == '\n'), suf := [] }

/-- Python `float` on a capture of `[\d.]+`, as an exact rational; `none`
when `float` raises `ValueError` (no digit at all, or more than one dot). -/
def pyFloatCap (s : List Char) : Option ℚ :=
  match s.splitOn '.' with
  | [ip] => some (digitsVal ip : ℚ)
  | [ip, fp] =>
    if ip.isEmpty && fp.isEmpty then none
    else some ((digitsVal ip : ℚ) + (digitsVal fp : ℚ) / (10 : ℚ) ^ fp.length)
  | _ => none

/-- The regex-extracted metric fields of the record (lines 66-94).  The six
integer metrics and the three float metrics are `none` when their pattern is
not found; `transaction_type` is `none` when its key is never inserted into
the record. -/
structure Metrics where
  scaling_factor : Option Int
  num_clients : Option Int
  num_threads : Option Int
  duration : Option Int
  transactions_processed : Option Int
  failed_transactions : Option Int
  latency_avg : Option ℚ
  initial_connection_time : Option ℚ
  tps : Option ℚ
  transaction_type : Option String
deriving DecidableEq, Repr

/-- An integer metric: the capture of `(\d+)` converted by `int` (which
cannot raise on an all-digit capture), or `none` when the pattern is
absent. -/
def intMetric (p : RePat) (content : List Char) : Option Int :=
  (reSearch p content).map (fun cap => (digitsVal cap : Int))

/-- A float metric: `some none` when the pattern is absent, `some (some q)`
on a successful `float`, and `none` when `float` raises (which aborts the
whole record). -/
def floatMetric (p : RePat) (content : List Char) : Option (Option ℚ) :=
  match reSearch p content with
  | none => some none
  | some cap =>
    match pyFloatCap cap with
    | none => none
    | some q => some (some q)

/-- Content decoding of `parse_pgbench_file` (lines 66-94): each of the nine
metric patterns is searched independently; a `ValueError` from `float` on a
degenerate capture aborts the record (the `except` path). -/
def parseContentMetrics (content : List Char) : Option Metrics :=
  match floatMetric patLatencyAvg content,
      floatMetric patInitialConnectionTime content,
      floatMetric patTps content with
  | some la, some ict, some tp =>
    some { scaling_factor := intMetric patScalingFactor content
           num_clients := intMetric patNumClients content
           num_threads := intMetric patNumThreads content
           duration := intMetric patDuration content
           transactions_processed := intMetric patTransactionsProcessed content
           failed_transactions := intMetric patFailedTransactions content
           latency_avg := la
           initial_connection_time := ict
           tps := tp
           transaction_type := (reSearch patTransactionType content).map
             (fun cap => String.mk cap) }
  | _, _, _ => none

/-- The nine fixed metric patterns, as an index type. -/
inductive MetricKey
  | scaling_factor | num_clients | num_threads | duration
  | transactions_processed | failed_transactions
  | latency_avg | initial_connection_time | tps
deriving DecidableEq, Repr

/-- The pattern of each metric. -/
def metricPat : MetricKey → RePat
  | .scaling_factor => patScalingFactor
  | .num_clients => patNumClients
  | .num_threads => patNumThreads
  | .duration => patDuration
  | .transactions_processed => patTransactionsProcessed
  | .failed_transactions => patFailedTransactions
  | .latency_avg => patLatencyAvg
  | .initial_connection_time => patInitialConnectionTime
  | .tps => patTps

/-- The field of a `Metrics` record selected by a `MetricKey`; integer
metrics land in `Sum.inl`, float metrics in `Sum.inr`. -/
def getMetric : MetricKey → Metrics → Option (Int ⊕ ℚ)
  | .scaling_factor, m => m.scaling_factor.map Sum.inl
  | .num_clients, m => m.num_clients.map Sum.inl
  | .num_threads, m => m.num_threads.map Sum.inl
  | .duration, m => m.duration.map Sum.inl
  | .transactions_processed, m => m.transactions_processed.map Sum.inl
  | .failed_transactions, m => m.failed_transactions.map Sum.inl
  | .latency_avg, m => m.latency_avg.map Sum.inr
  | .initial_connection_time, m => m.initial_connection_time.map Sum.inr
  | .tps, m => m.tps.map Sum.inr

/-- Whether a metric is one of the six parsed with `int` (lines 82-83). -/
def isIntMetric : MetricKey → Bool
  | .scaling_factor | .num_clients | .num_threads | .duration
  | .transactions_processed | .failed_transactions => true
  | .latency_avg | .initial_connection_time | .tps => false

/-- The value a metric field must take, as a function of only that metric's
own pattern search on the content. -/
def expectedMetric (k : MetricKey) (content : List Char) : Option (Int ⊕ ℚ) :=
  match reSearch (metricPat k) content with
  | none => none
  | some cap =>
    if isIntMetric k then some (Sum.inl (digitsVal cap : Int))
    else (pyFloatCap cap).map Sum.inr

/-- The full record (Python dict) built by `parse_pgbench_file`. -/
structure RawRecord where
  test_type : String
  clients : Option Int
  jobs : Option Int
  threshold : Option Int
  version : String
  run_number : Option Int
  scaling_factor : Option Int
  num_clients : Option Int
  num_threads : Option Int
  duration : Option Int
  transactions_processed : Option Int
  failed_transactions : Option Int
  latency_avg : Option ℚ
  initial_connection_time : Option ℚ
  tps : Option ℚ
  transaction_type : Option String
deriving DecidableEq, Repr

/-- Assembling the record from its filename fields and content metrics. -/
def combineRecord (ff : FilenameFields) (m : Metrics) : RawRecord :=
  { test_type := ff.test_type
    clients := ff.clients
    jobs := ff.jobs
    threshold := ff.threshold
    version := ff.version
    run_number := ff.run_number
    scaling_factor := m.scaling_factor
    num_clients := m.num_clients
    num_threads := m.num_threads
    duration := m.duration
    transactions_processed := m.transactions_processed
    failed_transactions := m.failed_transactions
    latency_avg := m.latency_avg
    initial_connection_time := m.initial_connection_time
    tps := m.tps
    transaction_type := m.transaction_type }

/-- `parse_pgbench_file` (lines 12-98) on the stem segments and the file
content; `none` is the `except` path returning `None`.  The filename fields
are computed before the content metrics, matching the statement order; any
exception in either part drops the whole record. -/
def parse_pgbench_file (parts : List String) (content : List Char) : Option RawRecord :=
  match parseFilenameData parts with
  | none => none
  | some ff =>
    match parseContentMetrics content with
    | none => none
    | some m => some (combineRecord ff m)

/-- One cell of a CSV row: the heterogeneous Python values stored in the
record dict.  `null` is Python `None` (serialized as an empty CSV field, the
same as `csv.DictWriter`'s default `restval` for a missing key). -/
inductive CellValue
  | s (v : String)
  | i (v : Int)
  | q (v : ℚ)
  | null
deriving DecidableEq, Repr

/-- An optional-int field as a cell. -/
def cellOfInt : Option Int → CellValue
  | none => .null
  | some n => .i n

/-- An optional-rational field as a cell. -/
def cellOfRat : Option ℚ → CellValue
  | none => .null
  | some v => .q v

/-- The record as the association list underlying the Python dict, in
insertion order: the six filename keys (lines 33-64), the nine metric keys in
pattern-table order (lines 67-87), and `transaction_type` only when its
pattern matched (lines 90-92). -/
def recordDict (r : RawRecord) : List (String × CellValue) :=
  [("test_type", .s r.test_type),
   ("clients", cellOfInt r.clients),
   ("jobs", cellOfInt r.jobs),
   ("threshold", cellOfInt r.threshold),
   ("version", .s r.version),
   ("run_number", cellOfInt r.run_number),
   ("scaling_factor", cellOfInt r.scaling_factor),
   ("num_clients", cellOfInt r.num_clients),
   ("num_threads", cellOfInt r.num_threads),
   ("duration", cellOfInt r.duration),
   ("transactions_processed", cellOfInt r.transactions_processed),
   ("failed_transactions", cellOfInt r.failed_transactions),
   ("latency_avg", cellOfRat r.latency_avg),
   ("initial_connection_time", cellOfRat r.initial_connection_time),
   ("tps", cellOfRat r.tps)] ++
    (match r.transaction_type with
     | some t => [("transaction_type", CellValue.s t)]
     | none => [])

/-- `data.keys()` of the record dict. -/
def recordKeys (r : RawRecord) : List String :=
  (recordDict r).map Prod.fst

/-- The combined CSV (`main`, lines 141-152): a header of column names and
one row of optional cells per record; a `none` cell is a field absent from
that record (written as the empty `restval` by `csv.DictWriter`). -/
structure CombinedTable where
  columns : List String
  rows : List (List (Option CellValue))

/-- `main` lines 143-152: the column set is the union of all records' keys,
sorted by name (`sorted(list(set))`); each record's row looks each column up
in its dict. -/
def combineRecords (recs : List RawRecord) : CombinedTable :=
  { columns := List.insertionSort (fun a b => a ≤ b)
      ((recs.flatMap (fun r => recordKeys r)).dedup)
    rows := recs.map (fun r =>
      (List.insertionSort (fun a b => a ≤ b)
          ((recs.flatMap (fun r2 => recordKeys r2)).dedup)).map
        (fun c => (recordDict r).lookup c)) }

/-- `main` lines 118-123: parse each file, keeping the records of the files
that parse successfully, in processing order. -/
def processFiles (files : List (List String × List Char)) : List RawRecord :=
  files.filterMap (fun f => parse_pgbench_file f.1 f.2)

/-- One row of `benchmark_results.csv` as read by `analyze_scaling.py`:
`connections` is integral, the latency statistics are floats. -/
structure SRow where
  version : String
  connections : Int
  median_ms : ℚ
deriving DecidableEq, Repr

/-- `analyze_scaling.py` lines 18-21: the unique versions in order of first
appearance. -/
def uniqueVersions (rows : List SRow) : List String :=
  rows.foldl (fun acc r => if r.version ∈ acc then acc else acc ++ [r.version]) []

/-- `analyze_scaling.py` line 31: the rows of one version with
`connections >= 100`, in original order. -/
def versionData (rows : List SRow) (v : String) : List SRow :=
  rows.filter (fun r => r.version = v ∧ 100 ≤ r.connections)

/-- Arithmetic mean (`np.mean`), as an exact rational. -/
def meanQ (l : List ℚ) : ℚ :=
  l.sum / (l.length : ℚ)

/-- Population variance (`np.std` squared, `ddof = 0`). -/
def popVariance (l : List ℚ) : ℚ :=
  ((l.map (fun y => (y - meanQ l) ^ 2)).sum) / (l.length : ℚ)

/-- Ordinary-least-squares slope (`scipy.stats.linregress`), exact: the
centred cross-moment over the centred second moment of `x`.  `linregress`
raises an uncaught `ValueError` when that second moment is zero (all `x`
identical); `analyze_scaling` therefore only uses this value on groups for
which `linregressRaises` is false, where the denominator is nonzero. -/
def lsSlope (xs ys : List ℚ) : ℚ :=
  ((List.zipWith (fun x y => (x - meanQ xs) * (y - meanQ ys)) xs ys).sum) /
    ((xs.map (fun x => (x - meanQ xs) ^ 2)).sum)

/-- Ordinary-least-squares intercept (`scipy.stats.linregress`). -/
def lsIntercept (xs ys : List ℚ) : ℚ :=
  meanQ ys - lsSlope xs ys * meanQ xs

/-- The latency formula reported by `analyze_scaling` (lines 56-61), as the
structured data behind the two format strings `"≈ {mean:.3f} ms (constant)"`
and `"{intercept:.3f} + {slope_us:.3f}×10⁻³ × N ms"`. -/
inductive Formula
  | constant (mean : ℚ)
  | linear (intercept slope_us : ℚ)
deriving DecidableEq, Repr

/-- The per-version result dict of `analyze_scaling` (lines 64-73); the
coefficient of variation, an irrational real, is modelled separately by
`cvOf` on the same data. -/
structure GroupResult where
  version : String
  complexity : String
  slope_us : ℚ
  intercept : ℚ
  mean_latency : ℚ
  formula : Formula
deriving DecidableEq, Repr

/-- Lines 41-73 for one version group with at least 3 data points, reached
only when `stats.linregress` did not raise (the call is guarded by
`linregressRaises` in `analyze_scaling`, as in the script the lines after
line 41 only run when `linregress` returned): regression of median latency
against connections, microsecond slope, and the `|slope_us| < 0.1`
classification (lines 52-61). -/
def mkGroupResult (v : String) (d : List SRow) : GroupResult :=
  let xs := d.map (fun r => (r.connections : ℚ))
  let ys := d.map (fun r => r.median_ms)
  let su := lsSlope xs ys * 1000
  if |su| < 1 / 10 then
    { version := v, complexity := "O(1)", slope_us := su
      intercept := lsIntercept xs ys, mean_latency := meanQ ys
      formula := Formula.constant (meanQ ys) }
  else
    { version := v, complexity := "O(N)", slope_us := su
      intercept := lsIntercept xs ys, mean_latency := meanQ ys
      formula := Formula.linear (lsIntercept xs ys) su }

/-- What `analyze_scaling` emits per version: either the printed
"Insufficient data" notice, or an analysis result. -/
inductive AnalyzeOutput
  | notice (version : String)
  | result (r : GroupResult)
deriving DecidableEq, Repr

/-- Whether `stats.linregress` (line 41) raises on a group: it raises an
uncaught `ValueError` ("Cannot calculate a linear regression if all x values
are identical") when the covariate has zero variance — for the integer
`connections` column, exactly when all its values are equal (it also raises
on an empty series, which the `< 3` guard already excludes). -/
def linregressRaises (d : List SRow) : Bool :=
  match d with
  | [] => true
  | r :: t => t.all (fun r2 => r2.connections == r.connections)

/-- The version loop of `analyze_scaling` (lines 29-85): each version group
is filtered to `connections >= 100`; fewer than 3 data points print a notice
and continue; a group on which `linregress` raises aborts the whole script
(the `ValueError` is uncaught), so nothing further is printed or stored.
Returns the outputs emitted before the loop ended and whether the script
crashed. -/
def analyzeSteps (rows : List SRow) : List String → List AnalyzeOutput × Bool
  | [] => ([], false)
  | v :: vs =>
    let d := versionData rows v
    if d.length < 3 then
      (AnalyzeOutput.notice v :: (analyzeSteps rows vs).1, (analyzeSteps rows vs).2)
    else if linregressRaises d then ([], true)
    else
      (AnalyzeOutput.result (mkGroupResult v d) :: (analyzeSteps rows vs).1,
       (analyzeSteps rows vs).2)

/-- `analyze_scaling` (lines 29-85): process the versions in order of first
appearance; the second component records whether the script aborted on
`linregress`'s uncaught `ValueError`. -/
def analyze_scaling (rows : List SRow) : List AnalyzeOutput × Bool :=
  analyzeSteps rows (uniqueVersions rows)

/-- `np.std(y) / mean_latency` (lines 49-50): the population standard
deviation over the mean, as a real number. -/
noncomputable def cvOf (ys : List ℚ) : ℝ :=
  Real.sqrt ((popVariance ys : ℚ) : ℝ) / ((meanQ ys : ℚ) : ℝ)

/-- The numeric core of `format_percentage_change` (`plot.py` lines 16-19):
`pct_change = ((current - baseline) / baseline) * 100`. -/
def pct_change (baseline current : ℚ) : ℚ :=
  (current - baseline) / baseline * 100

/-- Modelled from the spec: the propagated error of the
percentage-change-with-error-propagation comparison,
`100 * sqrt((current_std/baseline)^2 + (current*baseline_std/baseline^2)^2)`.
No file under the provided sources computes this quantity (`plot.py` only
computes the percentage change); the comparison-table code it belongs to is
not among the provided sources. -/
noncomputable def propagated_error (baseline baseline_std current current_std : ℝ) : ℝ :=
  100 * Real.sqrt ((current_std / baseline) ^ 2 +
    (current * baseline_std / baseline ^ 2) ^ 2)

/-- A pandas series of `connections` values carrying its dataframe index
labels, as produced by filtering `df` to one version without resetting the
index (`plot_candlestick.py` line 95). -/
def mkLabeled (rows : List (String × Int)) (v : String) : List (Nat × Int) :=
  (rows.enum.filter (fun p => p.2.1 = v)).map (fun p => (p.1, p.2.2))

/-- `Series.idxmax`: the index label of the first occurrence of the maximum
value (pandas raises on an empty series; the claims only use nonempty
ones). -/
def idxmaxLabel (s : List (Nat × Int)) : Nat :=
  match s with
  | [] => 0
  | p :: rest => (rest.foldl (fun best cur => if best.2 < cur.2 then cur else best) p).1

/-- The positional index of the first occurrence of the maximum value. -/
def posOfMax (s : List (Nat × Int)) : Nat :=
  match s with
  | [] => 0
  | p :: rest =>
    ((rest.enum.map (fun q => (q.1 + 1, q.2))).foldl
      (fun best cur => if best.2.2 < cur.2.2 then cur else best) (0, p)).1

/-- `plot_candlestick.py` lines 98-100:
`increasing_df = version_df.iloc[:version_df['connections'].idxmax() + 1]` —
`idxmax` returns a dataframe label, `iloc` slices by position. -/
def increasing_phase_code (s : List (Nat × Int)) : List (Nat × Int) :=
  s.take (idxmaxLabel s + 1)

/-- The spec's increasing phase ("all rows up to and including the index of
the maximum `connections` value, in original row order"), stated with the
positional index, for comparison with `increasing_phase_code`. -/
def increasing_phase_spec (s : List (Nat × Int)) : List (Nat × Int) :=
  s.take (posOfMax s + 1)

/-- The metrics record of an empty (or pattern-free) file content: every
metric null, no `transaction_type` key. -/
def emptyMetrics : Metrics :=
  { scaling_factor := none, num_clients := none, num_threads := none, duration := none
    transactions_processed := none, failed_transactions := none, latency_avg := none
    initial_connection_time := none, tps := none, transaction_type := none }

/-- The regression covariate of a group's data: its `connections` column as
floats. -/
def groupDXs (d : List SRow) : List ℚ :=
  d.map (fun r => (r.connections : ℚ))

/-- The regression response of a group's data: its `median_ms` column. -/
def groupDYs (d : List SRow) : List ℚ :=
  d.map (fun r => r.median_ms)

/-- `slope_us = slope * 1000` (`analyze_scaling.py` line 48) for a group's
data. -/
def slopeUsD (d : List SRow) : ℚ :=
  lsSlope (groupDXs d) (groupDYs d) * 1000

/-- Two well-formed input files, used as a concrete witness input. -/
def exampleFiles : List (List String × List Char) :=
  [(["t1", "c", "1", "j", "2", "v", "3"], []),
   (["t2", "c", "4", "j", "5", "w", "6"], [])]

/-- Two input files of which the second fails to parse (its `c` marker is
followed by a non-integer jobs slot, so `int` raises): a concrete
counterexample input. -/
def cexFiles : List (List String × List Char) :=
  [(["t1", "c", "1", "j", "2", "v", "3"], []),
   (["a", "b", "c", "5", "x", "y"], [])]

/-- A benchmark table with one version of three rows at `connections ≥ 100`. -/
def exampleRows : List SRow :=
  [{ version := "a", connections := 100, median_ms := 5 },
   { version := "a", connections := 200, median_ms := 5 },
   { version := "a", connections := 300, median_ms := 5 }]

/-- A benchmark table whose first version group `a` has three rows at the
same connection count (so `stats.linregress` raises on it) followed by a
version `b` with fewer than 3 rows. -/
def cexRowsCrash : List SRow :=
  [{ version := "a", connections := 150, median_ms := 5 },
   { version := "a", connections := 150, median_ms := 6 },
   { version := "a", connections := 150, median_ms := 7 },
   { version := "b", connections := 100, median_ms := 1 },
   { version := "b", connections := 200, median_ms := 1 }]

/-- A benchmark table where version `b` has only two rows at
`connections ≥ 100` and version `a` has three. -/
def exampleRows5 : List SRow :=
  [{ version := "b", connections := 100, median_ms := 1 },
   { version := "b", connections := 200, median_ms := 1 },
   { version := "a", connections := 100, median_ms := 5 },
   { version := "a", connections := 200, median_ms := 5 },
   { version := "a", connections := 300, median_ms := 5 }]

/-- A `benchmark_results.csv` whose version `B` rows are not at the start of
the frame and whose `B` sweep ramps down after its peak: rows
`(version, connections)` in file order. -/
def cexDf : List (String × Int) :=
  [("A", 1), ("A", 2), ("B", 1), ("B", 3), ("B", 2)]

/-! ### List helper lemmas -/

theorem getD_append_len (A l : List String) (k : Nat) (d : String) :
    (A ++ l).getD (A.length + k) d = l.getD k d := by
  induction A with
  | nil => simp
  | cons a A ih => simpa [Nat.succ_add] using ih

theorem get?_append_len (A l : List String) (k : Nat) :
    (A ++ l).get? (A.length + k) = l.get? k := by
  induction A with
  | nil => simp
  | cons a A ih => simpa [Nat.succ_add] using ih

theorem length_filterMap_of_isSome {α β : Type} (f : α → Option β) (l : List α)
    (h : ∀ x ∈ l, (f x).isSome) : (l.filterMap f).length = l.length := by
  induction l with
  | nil => rfl
  | cons a t ih =>
    rcases ho : f a with _ | b
    · exact absurd (h a (by simp)) (by simp [ho])
    · simp only [List.filterMap_cons, ho, List.length_cons]
      rw [ih (fun x hx => h x (by simp [hx]))]

theorem lookup_eq_none_iff (l : List (String × CellValue)) (k : String) :
    l.lookup k = none ↔ k ∉ l.map Prod.fst := by
  induction l with
  | nil => simp
  | cons p t ih =>
    rcases p with ⟨a, b⟩
    by_cases hk : k = a
    · subst hk; simp [List.lookup]
    · simp [List.lookup, beq_false_of_ne hk, ih, hk]

/-! ### Filename parsing: `findCIndex` and the grammar -/

theorem isDigits_c_false : isDigits "c" = false := by decide

theorem pyIntSeg_digits (s : String) (h : isDigits s = true) :
    pyIntSeg s = some (segVal s) := by
  simp [pyIntSeg, h]

theorem findCIndex_append (T : List String) (w : String) (rest : List String)
    (hw : isDigits w = true)
    (hT : ∀ i, i + 1 < T.length → ¬(T.getD i "" = "c" ∧ isDigits (T.getD (i + 1) "") = true)) :
    findCIndex (T ++ "c" :: w :: rest) = some T.length := by
  induction T with
  | nil => simp [findCIndex, hw]
  | cons t0 TT ih =>
    have ihres : findCIndex (TT ++ "c" :: w :: rest) = some TT.length := by
      refine ih (fun i hi => ?_)
      have := hT (i + 1) (by simpa using Nat.succ_lt_succ hi)
      simpa using this
    cases TT with
    | nil =>
      simp [findCIndex, isDigits_c_false, hw]
    | cons t1 T' =>
      have h0 : ¬(t0 = "c" ∧ isDigits t1 = true) := by
        have := hT 0 (by simp)
        simpa using this
      have hstep : findCIndex (t0 :: t1 :: (T' ++ "c" :: w :: rest)) =
          (findCIndex (t1 :: (T' ++ "c" :: w :: rest))).map (fun n => n + 1) := by
        rw [findCIndex]
        rw [if_neg (by simpa using h0)]
      have : (t1 :: T') ++ "c" :: w :: rest = t1 :: (T' ++ "c" :: w :: rest) := by simp
      rw [show (t0 :: t1 :: T') ++ "c" :: w :: rest =
        t0 :: t1 :: (T' ++ "c" :: w :: rest) from by simp, hstep]
      rw [this] at ihres
      rw [ihres]
      simp

theorem parseFilenameData_grammar (T vps : List String) (cs js rs : String)
    (thr : Option String)
    (hTne : T ≠ []) (hVne : vps ≠ [])
    (hcs : isDigits cs = true) (hjs : isDigits js = true) (hrs : isDigits rs = true)
    (hthr : thr.all isDigits = true)
    (hC : ∀ i < T.length - 1, ¬(T.getD i "" = "c" ∧ isDigits (T.getD (i + 1) "") = true))
    (hT : thr = none →
      ¬((vps ++ [rs]).getD 0 "" = "t" ∧ isDigits ((vps ++ [rs]).getD 1 "") = true)) :
    parseFilenameData (T ++ ["c", cs, "j", js] ++ thrSegs thr ++ vps ++ [rs]) =
      some { test_type := String.intercalate "_" T
             clients := some (segVal cs)
             jobs := some (segVal js)
             threshold := thr.map (fun ts => segVal ts)
             version := String.intercalate "-" vps
             run_number := some (segVal rs) } := by
  have hT1 : 1 ≤ T.length := List.length_pos.2 hTne
  have hV1 : 1 ≤ vps.length := List.length_pos.2 hVne
  have hre : T ++ ["c", cs, "j", js] ++ thrSegs thr ++ vps ++ [rs] =
      T ++ "c" :: cs :: "j" :: js :: (thrSegs thr ++ (vps ++ [rs])) := by simp
  rw [hre]
  have hfind : findCIndex (T ++ "c" :: cs :: "j" :: js :: (thrSegs thr ++ (vps ++ [rs]))) =
      some T.length :=
    findCIndex_append T cs _ hcs (fun i hi => hC i (by omega))
  have hthrlen : (thrSegs thr).length = if thr.isSome then 2 else 0 := by
    cases thr <;> simp [thrSegs]
  have hlen : (T ++ "c" :: cs :: "j" :: js :: (thrSegs thr ++ (vps ++ [rs]))).length =
      T.length + 4 + (thrSegs thr).length + vps.length + 1 := by
    simp [List.length_append]; omega
  have hlen6 : 6 ≤ (T ++ "c" :: cs :: "j" :: js :: (thrSegs thr ++ (vps ++ [rs]))).length := by
    rw [hlen]; omega
  rw [parseFilenameData, if_pos hlen6, hfind]
  change parseAtC _ T.length = _
  have hget1 : (T ++ "c" :: cs :: "j" :: js :: (thrSegs thr ++ (vps ++ [rs]))).get?
      (T.length + 1) = some cs := by
    rw [get?_append_len]; rfl
  have hget3 : (T ++ "c" :: cs :: "j" :: js :: (thrSegs thr ++ (vps ++ [rs]))).get?
      (T.length + 3) = some js := by
    rw [get?_append_len]; rfl
  have hlast : (T ++ "c" :: cs :: "j" :: js :: (thrSegs thr ++ (vps ++ [rs]))).getLastD "" = rs := by
    rw [show T ++ "c" :: cs :: "j" :: js :: (thrSegs thr ++ (vps ++ [rs])) =
      (T ++ "c" :: cs :: "j" :: js :: (thrSegs thr ++ vps)) ++ [rs] from by simp]
    exact List.getLastD_concat _ _ _
  have hdropLast : (T ++ "c" :: cs :: "j" :: js :: (thrSegs thr ++ (vps ++ [rs]))).dropLast =
      T ++ "c" :: cs :: "j" :: js :: (thrSegs thr ++ vps) := by
    rw [show T ++ "c" :: cs :: "j" :: js :: (thrSegs thr ++ (vps ++ [rs])) =
      (T ++ "c" :: cs :: "j" :: js :: (thrSegs thr ++ vps)) ++ [rs] from by simp]
    exact List.dropLast_concat
  have htake : (T ++ "c" :: cs :: "j" :: js :: (thrSegs thr ++ (vps ++ [rs]))).take T.length
      = T := List.take_left T _
  unfold parseAtC
  rw [hget1, Option.some_bind, pyIntSeg_digits cs hcs, Option.some_bind,
    hget3, Option.some_bind, pyIntSeg_digits js hjs, Option.some_bind,
    hlast, pyIntSeg_digits rs hrs, Option.some_bind]
  rcases thr with _ | ts
  · -- no threshold: the condition must evaluate to false
    have hg4 : (T ++ "c" :: cs :: "j" :: js :: (thrSegs none ++ (vps ++ [rs]))).getD
        (T.length + 4) "" = (vps ++ [rs]).getD 0 "" := by
      rw [getD_append_len]; simp [thrSegs]
    have hg5 : (T ++ "c" :: cs :: "j" :: js :: (thrSegs none ++ (vps ++ [rs]))).getD
        (T.length + 5) "" = (vps ++ [rs]).getD 1 "" := by
      rw [getD_append_len]; simp [thrSegs]
    have hcond : ¬ thresholdCond
        (T ++ "c" :: cs :: "j" :: js :: (thrSegs none ++ (vps ++ [rs]))) T.length := by
      rintro ⟨-, h2, -, h4⟩
      exact hT rfl ⟨by rw [hg4] at h2; exact h2, by rw [hg5] at h4; exact h4⟩
    have hdrop : (T ++ "c" :: cs :: "j" :: js :: (thrSegs none ++ vps)).drop (T.length + 4)
        = vps := by
      have := List.drop_left (T ++ ["c", cs, "j", js]) vps
      simp only [List.length_append, List.length_cons, List.length_nil] at this
      rw [show T ++ "c" :: cs :: "j" :: js :: (thrSegs none ++ vps) =
        T ++ ["c", cs, "j", js] ++ vps from by simp [thrSegs]]
      rw [show T.length + 4 = T.length + (3 + 1) from rfl]
      simp [List.append_assoc] at this
      simp [List.append_assoc, this]
    rw [if_neg hcond, if_neg hcond, htake, hdropLast, hdrop]
    simp [thrSegs]
  · -- threshold present: the condition holds
    have hts : isDigits ts = true := by simpa [Option.all] using hthr
    have hg4 : (T ++ "c" :: cs :: "j" :: js :: (thrSegs (some ts) ++ (vps ++ [rs]))).getD
        (T.length + 4) "" = "t" := by
      rw [getD_append_len]; simp [thrSegs]
    have hg5 : (T ++ "c" :: cs :: "j" :: js :: (thrSegs (some ts) ++ (vps ++ [rs]))).getD
        (T.length + 5) "" = ts := by
      rw [getD_append_len]; simp [thrSegs]
    have hcond : thresholdCond
        (T ++ "c" :: cs :: "j" :: js :: (thrSegs (some ts) ++ (vps ++ [rs]))) T.length := by
      refine ⟨?_, hg4, ?_, by rw [hg5]; exact hts⟩
      · rw [hlen, hthrlen]; simp; omega
      · rw [hlen, hthrlen]; simp; omega
    have hdrop : (T ++ "c" :: cs :: "j" :: js :: (thrSegs (some ts) ++ vps)).drop (T.length + 6)
        = vps := by
      have := List.drop_left (T ++ ["c", cs, "j", js, "t", ts]) vps
      simp only [List.length_append, List.length_cons, List.length_nil] at this
      rw [show T ++ "c" :: cs :: "j" :: js :: (thrSegs (some ts) ++ vps) =
        T ++ ["c", cs, "j", js, "t", ts] ++ vps from by simp [thrSegs]]
      rw [show T.length + 6 = T.length + (5 + 1) from rfl]
      simp [List.append_assoc] at this
      simp [List.append_assoc, this]
    rw [if_pos hcond, if_pos hcond, htake, hdropLast, hdrop, hg5]
    simp [thrSegs]

theorem grammarSuffix_of_tail (pre rest : List String) (h : grammarTail rest = true) :
    grammarSuffix (pre ++ rest) = true := by
  induction pre with
  | nil =>
    cases rest with
    | nil => simp [grammarTail] at h
    | cons a r => simp [grammarSuffix, h]
  | cons a pre ih =>
    rw [show (a :: pre) ++ rest = a :: (pre ++ rest) from rfl]
    cases hp : pre ++ rest with
    | nil =>
      rcases rest with _ | ⟨b, r⟩
      · simp [grammarTail] at h
      · simp at hp
    | cons b r =>
      rw [grammarSuffix, ← hp, ih]
      simp

theorem matchesGrammarB_complete (parts T : List String) (cs js : String)
    (thr : Option String) (vps : List String) (rs : String)
    (h : GrammarMatch parts T cs js thr vps rs) :
    matchesGrammarB parts = true := by
  obtain ⟨hTne, hVne, hcs, hjs, hrs, hthr, hp⟩ := h
  subst hp
  rcases T with _ | ⟨t0, T'⟩
  · exact absurd rfl hTne
  rw [show (t0 :: T') ++ ["c", cs, "j", js] ++ thrSegs thr ++ vps ++ [rs] =
      t0 :: (T' ++ "c" :: cs :: "j" :: js :: (thrSegs thr ++ vps ++ [rs])) from by simp]
  show grammarSuffix (T' ++ "c" :: cs :: "j" :: js :: (thrSegs thr ++ vps ++ [rs])) = true
  apply grammarSuffix_of_tail
  have hlast : (thrSegs thr ++ vps ++ [rs]).getLastD "" = rs := by
    rw [show thrSegs thr ++ vps ++ [rs] = (thrSegs thr ++ vps) ++ [rs] from by simp]
    exact List.getLastD_concat _ _ _
  have hv : 1 ≤ vps.length := List.length_pos.2 hVne
  simp [grammarTail, grammarEnd, hcs, hjs, hlast, hrs]
  exact Or.inl (by omega)

/-! ### Claims C1 and C2: filename decoding -/

/-- C1 (amended): for every filename stem matching the grammar
`<type>-c-<clients>-j-<jobs>[-t-<threshold>]-<version>-<run>`, provided that
(a) within the type part no segment `c` is immediately followed by an
all-digit segment, and (b) when the threshold part is absent the remainder
after the jobs segment does not begin with a segment `t` immediately
followed by an all-digit segment, `parse_pgbench_file` (on any content whose
metric extraction raises no exception) returns a record whose `clients`,
`jobs`, `threshold` (null when the optional part is absent), `version` and
`run_number` equal the encoded values, with `test_type` the type segments
rejoined with `_` and `version` the version segments rejoined with `-`. -/
theorem C1_filename_roundtrip (parts T vps : List String) (cs js rs : String)
    (thr : Option String) (content : List Char) (m : Metrics)
    (h : GrammarMatch parts T cs js thr vps rs)
    (hC : ∀ i < T.length - 1, ¬(T.getD i "" = "c" ∧ isDigits (T.getD (i + 1) "") = true))
    (hT : thr = none →
      ¬((vps ++ [rs]).getD 0 "" = "t" ∧ isDigits ((vps ++ [rs]).getD 1 "") = true))
    (hm : parseContentMetrics content = some m) :
    parse_pgbench_file parts content =
      some (combineRecord
        { test_type := String.intercalate "_" T
          clients := some (segVal cs)
          jobs := some (segVal js)
          threshold := thr.map (fun ts => segVal ts)
          version := String.intercalate "-" vps
          run_number := some (segVal rs) } m) := by
  obtain ⟨hTne, hVne, hcs, hjs, hrs, hthr, hp⟩ := h
  subst hp
  unfold parse_pgbench_file
  rw [parseFilenameData_grammar T vps cs js rs thr hTne hVne hcs hjs hrs hthr hC hT, hm]

theorem C1_filename_roundtrip_witness :
    GrammarMatch ["listen", "notify", "c", "4", "j", "2", "t", "16", "master", "1"]
      ["listen", "notify"] "4" "2" (some "16") ["master"] "1" ∧
    parse_pgbench_file ["listen", "notify", "c", "4", "j", "2", "t", "16", "master", "1"] [] =
      some (combineRecord
        { test_type := "listen_notify", clients := some 4, jobs := some 2
          threshold := some 16, version := "master", run_number := some 1 } emptyMetrics) :=
  ⟨by decide,
    (C1_filename_roundtrip _ ["listen", "notify"] ["master"] "4" "2" "1" (some "16") [] emptyMetrics
        (by decide) (by decide) (by decide) rfl).trans (by decide)⟩

/-- C1 counterexample: two grammar-matching stems the parser mishandles.
The stem `x-c-1-j-2-t-3` matches the grammar (uniquely, with type `x`,
clients 1, jobs 2, no threshold part, version `t`, run 3), yet the parser
returns threshold 3 and an empty version instead of a null threshold and
version `t`.  The stem `x-c-5-y-c-1-j-2-vv-3` matches the grammar (uniquely,
with type `x-c-5-y`), yet the parser locks onto the first `c`-digits pair,
`int('c')` raises on the jobs slot, and no record is returned at all. -/
theorem C1_counterexample :
    (GrammarMatch ["x", "c", "1", "j", "2", "t", "3"] ["x"] "1" "2" none ["t"] "3" ∧
      parse_pgbench_file ["x", "c", "1", "j", "2", "t", "3"] [] =
        some (combineRecord
          { test_type := "x", clients := some 1, jobs := some 2, threshold := some 3
            version := "", run_number := some 3 } emptyMetrics) ∧
      some (3 : Int) ≠ (none : Option Int) ∧ ("" : String) ≠ "t") ∧
    (GrammarMatch ["x", "c", "5", "y", "c", "1", "j", "2", "vv", "3"]
        ["x", "c", "5", "y"] "1" "2" none ["vv"] "3" ∧
      parse_pgbench_file ["x", "c", "5", "y", "c", "1", "j", "2", "vv", "3"] [] = none) :=
  ⟨⟨by decide, by decide, by decide⟩, ⟨by decide, by decide⟩⟩

theorem parseAtC_clients (parts : List String) (ci : Nat) (ff : FilenameFields)
    (h : parseAtC parts ci = some ff) : ff.clients ≠ none := by
  unfold parseAtC at h
  rcases h1 : parts.get? (ci + 1) with _ | cseg <;> rw [h1] at h
  · simp at h
  simp only [Option.some_bind] at h
  rcases h2 : pyIntSeg cseg with _ | cv <;> rw [h2] at h
  · simp at h
  simp only [Option.some_bind] at h
  rcases h3 : parts.get? (ci + 3) with _ | jseg <;> rw [h3] at h
  · simp at h
  simp only [Option.some_bind] at h
  rcases h4 : pyIntSeg jseg with _ | jv <;> rw [h4] at h
  · simp at h
  simp only [Option.some_bind] at h
  rcases h5 : pyIntSeg (parts.getLastD "") with _ | rv <;> rw [h5] at h
  · simp at h
  simp only [Option.some_bind, Option.some.injEq] at h
  rw [← h]
  simp

/-- C2 (amended): for every stem that splits into fewer than 6 segments or
has no segment `c` followed by an all-digit segment — exactly the fallback
domain of the code — `parse_pgbench_file` never raises and (provided the
content's metric extraction raises no exception) returns the fallback
record: `test_type` is the whole stem, `version` is `"unknown"`, and
`clients`, `jobs`, `threshold`, `run_number` are null.  Grammar-failing
stems outside that domain never get the fallback record: any record the
parser returns for a stem with at least 6 segments and a `c`-marker has
non-null `clients` (second conjunct), so the parser either returns such a
structured record or catches an `int()` exception and returns no record. -/
theorem C2_nonmatching_fallback (parts : List String) (content : List Char) (m : Metrics)
    (hfb : parts.length < 6 ∨ findCIndex parts = none)
    (hm : parseContentMetrics content = some m) :
    parse_pgbench_file parts content = some (combineRecord (fallbackFields parts) m) ∧
    (∀ parts2 : List String, ∀ content2 : List Char, ∀ ci : Nat, ∀ r : RawRecord,
      6 ≤ parts2.length → findCIndex parts2 = some ci →
      parse_pgbench_file parts2 content2 = some r → r.clients ≠ none) := by
  constructor
  · unfold parse_pgbench_file
    have hf : parseFilenameData parts = some (fallbackFields parts) := by
      unfold parseFilenameData
      rcases hfb with h | h
      · rw [if_neg (by omega)]
      · by_cases h6 : 6 ≤ parts.length
        · rw [if_pos h6, h]
        · rw [if_neg h6]
    rw [hf, hm]
  · intro parts2 content2 ci r h6 hci hr
    unfold parse_pgbench_file at hr
    rcases hf2 : parseFilenameData parts2 with _ | ff <;> rw [hf2] at hr
    · exact absurd hr (by simp)
    rcases hm2 : parseContentMetrics content2 with _ | m2 <;> rw [hm2] at hr
    · exact absurd hr (by simp)
    simp only [Option.some.injEq] at hr
    have hatc : parseAtC parts2 ci = some ff := by
      rw [← hf2, parseFilenameData, if_pos h6, hci]
    have hcl : ff.clients ≠ none := parseAtC_clients parts2 ci ff hatc
    rw [← hr]
    exact hcl

theorem C2_nonmatching_fallback_witness :
    (["some", "results", "file"].length < 6 ∨ findCIndex ["some", "results", "file"] = none) ∧
    parse_pgbench_file ["some", "results", "file"] [] =
      some (combineRecord (fallbackFields ["some", "results", "file"]) emptyMetrics) :=
  ⟨by decide, (C2_nonmatching_fallback ["some", "results", "file"] [] emptyMetrics
    (by decide) rfl).1⟩

/-- A grammar-failing stem outside the fallback domain yielding a structured,
non-fallback record: for `a-b-c-5-j-7` the marker scan finds the `c` at index
2 and the parser returns clients 5, jobs 7, an empty version and run 7 —
neither the fallback record nor a parse failure. -/
theorem structured_nonfallback_example :
    (¬ MatchesGrammar ["a", "b", "c", "5", "j", "7"]) ∧
    parse_pgbench_file ["a", "b", "c", "5", "j", "7"] [] =
      some (combineRecord
        { test_type := "a_b", clients := some 5, jobs := some 7, threshold := none
          version := "", run_number := some 7 } emptyMetrics) := by
  constructor
  · rintro ⟨T, cs, js, thr, vps, rs, hg⟩
    have h1 := matchesGrammarB_complete _ T cs js thr vps rs hg
    have h2 : matchesGrammarB ["a", "b", "c", "5", "j", "7"] = false := by decide
    rw [h2] at h1
    exact Bool.false_ne_true h1
  · decide

/-- C2 counterexample: the stem `a-b-c-5-x-y` does not match the grammar, yet
the parser does not return the fallback record: `int(parts[c_index + 3])`
raises, the exception is caught, and no record at all is produced. -/
theorem C2_counterexample :
    ¬ MatchesGrammar ["a", "b", "c", "5", "x", "y"] ∧
    parse_pgbench_file ["a", "b", "c", "5", "x", "y"] [] = none := by
  constructor
  · rintro ⟨T, cs, js, thr, vps, rs, hg⟩
    have h1 := matchesGrammarB_complete _ T cs js thr vps rs hg
    have h2 : matchesGrammarB ["a", "b", "c", "5", "x", "y"] = false := by decide
    rw [h2] at h1
    exact Bool.false_ne_true h1
  · decide

/-! ### Claims C7 and C10: content metric extraction -/

theorem floatMetric_some (p : RePat) (content : List Char) (v : Option ℚ)
    (h : floatMetric p content = some v) :
    v = (reSearch p content).bind pyFloatCap := by
  unfold floatMetric at h
  cases hs : reSearch p content <;> rw [hs] at h
  · simpa using h.symm
  · rename_i cap
    have h2 : (match pyFloatCap cap with
        | none => none
        | some q => some (some q) : Option (Option ℚ)) = some v := h
    cases hq : pyFloatCap cap <;> rw [hq] at h2
    · exact absurd h2 (by simp)
    · rw [show ((some cap).bind pyFloatCap) = pyFloatCap cap from rfl, hq]
      simpa using h2.symm

theorem parseContentMetrics_some (content : List Char) (m : Metrics)
    (hm : parseContentMetrics content = some m) :
    m = { scaling_factor := intMetric patScalingFactor content
          num_clients := intMetric patNumClients content
          num_threads := intMetric patNumThreads content
          duration := intMetric patDuration content
          transactions_processed := intMetric patTransactionsProcessed content
          failed_transactions := intMetric patFailedTransactions content
          latency_avg := (reSearch patLatencyAvg content).bind pyFloatCap
          initial_connection_time :=
            (reSearch patInitialConnectionTime content).bind pyFloatCap
          tps := (reSearch patTps content).bind pyFloatCap
          transaction_type := (reSearch patTransactionType content).map
            (fun cap => String.mk cap) } := by
  unfold parseContentMetrics at hm
  rcases h1 : floatMetric patLatencyAvg content with _ | la <;> rw [h1] at hm
  · exact absurd hm (by simp)
  rcases h2 : floatMetric patInitialConnectionTime content with _ | ict <;> rw [h2] at hm
  · exact absurd hm (by simp)
  rcases h3 : floatMetric patTps content with _ | tp <;> rw [h3] at hm
  · exact absurd hm (by simp)
  have hm2 := hm
  simp only [Option.some.injEq] at hm2
  rw [← hm2, floatMetric_some _ _ _ h1, floatMetric_some _ _ _ h2, floatMetric_some _ _ _ h3]

/-- C7: for every file content and each of the nine fixed metric patterns, a
successfully returned record's field for that metric is exactly the value
determined by that metric's own pattern search (null — never zero — when the
pattern does not match, the `int` of the capture for the six integer metrics,
the `float` of the capture for the three float metrics); in particular no
other field is affected by the absence of one metric's pattern. -/
theorem C7_metric_frame (content : List Char) (k : MetricKey) (m : Metrics)
    (hm : parseContentMetrics content = some m) :
    getMetric k m = expectedMetric k content ∧
    (reSearch (metricPat k) content = none → getMetric k m = none) := by
  have hrec := parseContentMetrics_some content m hm
  subst hrec
  have hmain : ∀ k2 : MetricKey, getMetric k2
      { scaling_factor := intMetric patScalingFactor content
        num_clients := intMetric patNumClients content
        num_threads := intMetric patNumThreads content
        duration := intMetric patDuration content
        transactions_processed := intMetric patTransactionsProcessed content
        failed_transactions := intMetric patFailedTransactions content
        latency_avg := (reSearch patLatencyAvg content).bind pyFloatCap
        initial_connection_time :=
          (reSearch patInitialConnectionTime content).bind pyFloatCap
        tps := (reSearch patTps content).bind pyFloatCap
        transaction_type := (reSearch patTransactionType content).map
          (fun cap => String.mk cap) } = expectedMetric k2 content := by
    intro k2
    cases k2 with
    | scaling_factor =>
      cases hs : reSearch patScalingFactor content <;>
        simp [getMetric, expectedMetric, metricPat, intMetric, isIntMetric, hs]
    | num_clients =>
      cases hs : reSearch patNumClients content <;>
        simp [getMetric, expectedMetric, metricPat, intMetric, isIntMetric, hs]
    | num_threads =>
      cases hs : reSearch patNumThreads content <;>
        simp [getMetric, expectedMetric, metricPat, intMetric, isIntMetric, hs]
    | duration =>
      cases hs : reSearch patDuration content <;>
        simp [getMetric, expectedMetric, metricPat, intMetric, isIntMetric, hs]
    | transactions_processed =>
      cases hs : reSearch patTransactionsProcessed content <;>
        simp [getMetric, expectedMetric, metricPat, intMetric, isIntMetric, hs]
    | failed_transactions =>
      cases hs : reSearch patFailedTransactions content <;>
        simp [getMetric, expectedMetric, metricPat, intMetric, isIntMetric, hs]
    | latency_avg =>
      cases hs : reSearch patLatencyAvg content <;>
        simp [getMetric, expectedMetric, metricPat, isIntMetric, hs]
    | initial_connection_time =>
      cases hs : reSearch patInitialConnectionTime content <;>
        simp [getMetric, expectedMetric, metricPat, isIntMetric, hs]
    | tps =>
      cases hs : reSearch patTps content <;>
        simp [getMetric, expectedMetric, metricPat, isIntMetric, hs]
  refine ⟨hmain k, fun hn => ?_⟩
  rw [hmain k]
  simp [expectedMetric, hn]

theorem C7_metric_frame_witness :
    parseContentMetrics [] = some emptyMetrics ∧
    (getMetric MetricKey.scaling_factor emptyMetrics =
        expectedMetric MetricKey.scaling_factor [] ∧
      (reSearch (metricPat MetricKey.scaling_factor) [] = none →
        getMetric MetricKey.scaling_factor emptyMetrics = none)) :=
  ⟨rfl, C7_metric_frame [] MetricKey.scaling_factor emptyMetrics rfl⟩

/-- C10: a record returned for a content with no `transaction type: <rest>`
line has no `transaction_type` key at all (rather than a null value), and a
record returned for a content with such a line does have the key, so the key
sets differ. -/
theorem C10_transaction_type_key (parts : List String) (content : List Char) (r : RawRecord)
    (hr : parse_pgbench_file parts content = some r) :
    (reSearch patTransactionType content = none →
      r.transaction_type = none ∧ "transaction_type" ∉ recordKeys r) ∧
    (∀ cap, reSearch patTransactionType content = some cap →
      "transaction_type" ∈ recordKeys r) := by
  unfold parse_pgbench_file at hr
  rcases hf : parseFilenameData parts with _ | ff <;> rw [hf] at hr
  · exact absurd hr (by simp)
  rcases hmm : parseContentMetrics content with _ | m <;> rw [hmm] at hr
  · exact absurd hr (by simp)
  simp only [Option.some.injEq] at hr
  have htx : r.transaction_type =
      (reSearch patTransactionType content).map (fun cap => String.mk cap) := by
    rw [← hr, parseContentMetrics_some content m hmm]
    rfl
  constructor
  · intro hn
    have h0 : r.transaction_type = none := by rw [htx, hn]; rfl
    refine ⟨h0, ?_⟩
    simp [recordKeys, recordDict, h0]
  · intro cap hcap
    have h0 : r.transaction_type = some (String.mk cap) := by rw [htx, hcap]; rfl
    simp [recordKeys, recordDict, h0]

theorem C10_transaction_type_key_witness :
    parse_pgbench_file ["x", "c", "1", "j", "2", "v", "7"] [] =
      some (combineRecord
        { test_type := "x", clients := some 1, jobs := some 2, threshold := none
          version := "v", run_number := some 7 } emptyMetrics) ∧
    "transaction_type" ∉ recordKeys (combineRecord
      { test_type := "x", clients := some 1, jobs := some 2, threshold := none
        version := "v", run_number := some 7 } emptyMetrics) :=
  ⟨by decide,
    ((C10_transaction_type_key ["x", "c", "1", "j", "2", "v", "7"] [] _ (by decide)).1
      (by decide)).2⟩

/-! ### Claim C3: aggregation into the combined table -/

/-- C3 (amended): aggregating the successfully parsed records of a nonempty
list of input files, all of which parse successfully, yields a combined table
with exactly one row per file in processing order, whose column list is
sorted and whose column set is the union of all per-record field names; a
field absent from a record's dict is looked up as null in that record's
row. -/
theorem C3_aggregation (files : List (List String × List Char))
    (_hne : files ≠ [])
    (hall : ∀ f ∈ files, (parse_pgbench_file f.1 f.2).isSome) :
    (combineRecords (processFiles files)).rows.length = files.length ∧
    List.Sorted (fun a b => a ≤ b) (combineRecords (processFiles files)).columns ∧
    (∀ c, c ∈ (combineRecords (processFiles files)).columns ↔
      ∃ r ∈ processFiles files, c ∈ recordKeys r) ∧
    (∀ r ∈ processFiles files, ∀ c,
      ((recordDict r).lookup c = none ↔ c ∉ recordKeys r)) ∧
    (combineRecords (processFiles files)).rows =
      (processFiles files).map (fun r =>
        (combineRecords (processFiles files)).columns.map
          (fun c => (recordDict r).lookup c)) := by
  haveI hTot : IsTotal String (fun a b => a ≤ b) := ⟨fun a b => le_total a b⟩
  haveI hTrans : IsTrans String (fun a b => a ≤ b) :=
    ⟨fun a b c hab hbc => le_trans hab hbc⟩
  refine ⟨?_, ?_, ?_, ?_, rfl⟩
  · have h1 : (processFiles files).length = files.length :=
      length_filterMap_of_isSome _ files hall
    simp [combineRecords, h1]
  · exact List.sorted_insertionSort _ _
  · intro c
    simp [combineRecords, List.mem_insertionSort, List.mem_dedup, List.mem_flatMap]
  · intro r _ c
    rw [lookup_eq_none_iff]
    rfl

theorem C3_aggregation_witness :
    (exampleFiles ≠ [] ∧ ∀ f ∈ exampleFiles, (parse_pgbench_file f.1 f.2).isSome) ∧
    (combineRecords (processFiles exampleFiles)).rows.length = 2 :=
  ⟨⟨by decide, by decide⟩,
    ((C3_aggregation exampleFiles (by decide) (by decide)).1).trans (by decide)⟩

/-- C3 counterexample: of two input files one fails to parse (a caught
exception), so the combined table has a single row, not one row per source
file. -/
theorem C3_counterexample :
    cexFiles.length = 2 ∧
    (combineRecords (processFiles cexFiles)).rows.length = 1 :=
  ⟨by decide, by decide⟩

/-! ### Claims C4 and C5: scaling analysis -/

theorem mkGroupResult_version (v : String) (d : List SRow) :
    (mkGroupResult v d).version = v := by
  simp only [mkGroupResult]
  split_ifs <;> rfl

theorem analyzeSteps_no_crash (rows : List SRow) (vs : List String)
    (hnc : ∀ w ∈ vs, 3 ≤ (versionData rows w).length →
      linregressRaises (versionData rows w) = false) :
    analyzeSteps rows vs =
      (vs.flatMap (fun v =>
        if (versionData rows v).length < 3 then [AnalyzeOutput.notice v]
        else [AnalyzeOutput.result (mkGroupResult v (versionData rows v))]), false) := by
  induction vs with
  | nil => rfl
  | cons v vs ih =>
    have ih2 := ih (fun w hw h3 => hnc w (by simp [hw]) h3)
    by_cases hlen : (versionData rows v).length < 3
    · rw [analyzeSteps, if_pos hlen, ih2]
      simp [hlen]
    · have hnr : linregressRaises (versionData rows v) = false :=
        hnc v (by simp) (by omega)
      rw [analyzeSteps, if_neg hlen, if_neg (by simp [hnr]), ih2]
      simp [hlen]

theorem analyzeSteps_result_mem (rows : List SRow) (vs : List String) (g : GroupResult)
    (hg : AnalyzeOutput.result g ∈ (analyzeSteps rows vs).1) :
    ∃ w ∈ vs, 3 ≤ (versionData rows w).length ∧
      linregressRaises (versionData rows w) = false ∧
      g = mkGroupResult w (versionData rows w) := by
  induction vs with
  | nil => simp [analyzeSteps] at hg
  | cons v vs ih =>
    rw [analyzeSteps] at hg
    by_cases hlen : (versionData rows v).length < 3
    · rw [if_pos hlen] at hg
      simp only [List.mem_cons] at hg
      rcases hg with hg | hg
      · exact absurd hg (by simp)
      · obtain ⟨w, hw, h⟩ := ih hg
        exact ⟨w, by simp [hw], h⟩
    · by_cases hr : linregressRaises (versionData rows v) = true
      · rw [if_neg hlen, if_pos hr] at hg
        simp at hg
      · rw [if_neg hlen, if_neg hr] at hg
        simp only [List.mem_cons] at hg
        rcases hg with hg | hg
        · refine ⟨v, by simp, by omega, by simpa using hr, by simpa using hg⟩
        · obtain ⟨w, hw, h⟩ := ih hg
          exact ⟨w, by simp [hw], h⟩

/-- C4: on inputs where no analyzed group makes `stats.linregress` raise (a
group of at least 3 points with all-identical connections), the analysis
completes and every version group with at least 3 filtered data points is
analyzed; on every input, each emitted result is the analysis of its own
version's filtered data, and the analysis classifies a group `O(1)` with the
group-mean formula exactly when the absolute microsecond slope is below 0.1,
and `O(N)` with the intercept/slope formula otherwise. -/
theorem C4_classification (rows : List SRow) (v : String)
    (hv : v ∈ uniqueVersions rows)
    (h3 : 3 ≤ (versionData rows v).length)
    (hnc : ∀ w ∈ uniqueVersions rows, 3 ≤ (versionData rows w).length →
      linregressRaises (versionData rows w) = false) :
    ((analyze_scaling rows).2 = false ∧
      AnalyzeOutput.result (mkGroupResult v (versionData rows v)) ∈
        (analyze_scaling rows).1) ∧
    (∀ rows2 : List SRow, ∀ g : GroupResult,
      AnalyzeOutput.result g ∈ (analyze_scaling rows2).1 →
      3 ≤ (versionData rows2 g.version).length ∧
        g = mkGroupResult g.version (versionData rows2 g.version)) ∧
    (∀ v2 : String, ∀ d : List SRow,
      (|slopeUsD d| < 1 / 10 →
        (mkGroupResult v2 d).complexity = "O(1)" ∧
        (mkGroupResult v2 d).formula = Formula.constant (meanQ (groupDYs d))) ∧
      (1 / 10 ≤ |slopeUsD d| →
        (mkGroupResult v2 d).complexity = "O(N)" ∧
        (mkGroupResult v2 d).formula =
          Formula.linear (lsIntercept (groupDXs d) (groupDYs d)) (slopeUsD d))) := by
  have hout := analyzeSteps_no_crash rows (uniqueVersions rows) hnc
  refine ⟨⟨?_, ?_⟩, ?_, ?_⟩
  · rw [analyze_scaling, hout]
  · rw [analyze_scaling, hout]
    refine List.mem_flatMap.2 ⟨v, hv, ?_⟩
    rw [if_neg (by omega)]
    simp
  · intro rows2 g hg
    rw [analyze_scaling] at hg
    obtain ⟨w, hw, h3w, hnr, hgw⟩ := analyzeSteps_result_mem rows2 (uniqueVersions rows2) g hg
    have hver : g.version = w := by rw [hgw, mkGroupResult_version]
    rw [hver]
    exact ⟨h3w, hgw⟩
  · intro v2 d
    constructor
    · intro hb
      simp only [mkGroupResult]
      split_ifs with h
      · exact ⟨rfl, rfl⟩
      · exact absurd hb h
    · intro hb
      simp only [mkGroupResult]
      split_ifs with h
      · exact absurd h (not_lt.2 hb)
      · exact ⟨rfl, rfl⟩

theorem C4_classification_witness :
    ("a" ∈ uniqueVersions exampleRows ∧ 3 ≤ (versionData exampleRows "a").length ∧
      (∀ w ∈ uniqueVersions exampleRows, 3 ≤ (versionData exampleRows w).length →
        linregressRaises (versionData exampleRows w) = false)) ∧
    ((analyze_scaling exampleRows).2 = false ∧
      AnalyzeOutput.result (mkGroupResult "a" (versionData exampleRows "a")) ∈
        (analyze_scaling exampleRows).1) :=
  ⟨⟨by decide, by decide, by decide⟩,
    (C4_classification exampleRows "a" (by decide) (by decide) (by decide)).1⟩

/-- C5 (amended): provided no version group with at least 3 filtered data
points has all-identical connections (on which `stats.linregress` raises an
uncaught `ValueError` that aborts the script), every version group with fewer
than 3 data points after the `connections ≥ 100` filter is skipped with a
printed notice, the run completes without error, no result is emitted for the
skipped group, and every group with at least 3 data points is still
analyzed. -/
theorem C5_insufficient_data (rows : List SRow) (v : String)
    (hv : v ∈ uniqueVersions rows)
    (hlt : (versionData rows v).length < 3)
    (hnc : ∀ w ∈ uniqueVersions rows, 3 ≤ (versionData rows w).length →
      linregressRaises (versionData rows w) = false) :
    (analyze_scaling rows).2 = false ∧
    AnalyzeOutput.notice v ∈ (analyze_scaling rows).1 ∧
    (∀ g : GroupResult,
      AnalyzeOutput.result g ∈ (analyze_scaling rows).1 → g.version ≠ v) ∧
    (∀ w ∈ uniqueVersions rows, 3 ≤ (versionData rows w).length →
      AnalyzeOutput.result (mkGroupResult w (versionData rows w)) ∈
        (analyze_scaling rows).1) := by
  have hout := analyzeSteps_no_crash rows (uniqueVersions rows) hnc
  refine ⟨?_, ?_, ?_, ?_⟩
  · rw [analyze_scaling, hout]
  · rw [analyze_scaling, hout]
    refine List.mem_flatMap.2 ⟨v, hv, ?_⟩
    rw [if_pos hlt]
    simp
  · intro g hg hgv
    rw [analyze_scaling] at hg
    obtain ⟨w, hw, h3w, hnr, hgw⟩ := analyzeSteps_result_mem rows (uniqueVersions rows) g hg
    have hver : g.version = w := by rw [hgw, mkGroupResult_version]
    rw [hgv] at hver
    rw [hver] at hlt
    omega
  · intro w hw hw3
    rw [analyze_scaling, hout]
    refine List.mem_flatMap.2 ⟨w, hw, ?_⟩
    rw [if_neg (by omega)]
    simp

theorem C5_insufficient_data_witness :
    ("b" ∈ uniqueVersions exampleRows5 ∧ (versionData exampleRows5 "b").length < 3 ∧
      (∀ w ∈ uniqueVersions exampleRows5, 3 ≤ (versionData exampleRows5 w).length →
        linregressRaises (versionData exampleRows5 w) = false)) ∧
    AnalyzeOutput.notice "b" ∈ (analyze_scaling exampleRows5).1 :=
  ⟨⟨by decide, by decide, by decide⟩,
    ((C5_insufficient_data exampleRows5 "b" (by decide) (by decide) (by decide)).2).1⟩

/-- C5 counterexample: on a table whose first version group has three rows
at identical connection counts, `stats.linregress` raises an uncaught
`ValueError` and the script aborts with no output, so the later version `b`
— which has fewer than 3 data points — never gets its notice and the
remaining groups are not analyzed. -/
theorem C5_counterexample :
    "b" ∈ uniqueVersions cexRowsCrash ∧
    (versionData cexRowsCrash "b").length < 3 ∧
    analyze_scaling cexRowsCrash = ([], true) ∧
    AnalyzeOutput.notice "b" ∉ (analyze_scaling cexRowsCrash).1 :=
  ⟨by decide, by decide, by decide, by decide⟩

/-! ### Claim C6: the increasing-phase selection -/

/-- C6 (code bug): on a frame whose version `B` rows carry dataframe labels
2, 3, 4 (they are not at the start of the CSV), the code's
`iloc[:idxmax() + 1]` keeps all three `B` rows — including the post-peak row
with `connections = 2` — because `idxmax` returns the label 3 while `iloc`
slices by position; the spec's increasing phase keeps only the rows up to
and including the maximum. -/
theorem C6_increasing_phase_bug :
    mkLabeled cexDf "B" = [(2, 1), (3, 3), (4, 2)] ∧
    increasing_phase_code [(2, 1), (3, 3), (4, 2)] = [(2, 1), (3, 3), (4, 2)] ∧
    increasing_phase_spec [(2, 1), (3, 3), (4, 2)] = [(2, 1), (3, 3)] ∧
    increasing_phase_code (mkLabeled cexDf "B") ≠
      increasing_phase_spec (mkLabeled cexDf "B") := by
  refine ⟨by decide, by decide, by decide, by decide⟩

/-! ### Claims C8 and C9: comparison statistics -/

/-- C8: the reported percentage change is `(current - baseline)/baseline *
100` (so +20% for baseline 100, current 120), and the propagated error is
`100 * sqrt((current_std/baseline)^2 + (current*baseline_std/baseline^2)^2)`
(approximately 8.49 for baseline 100 ± 5, current 120 ± 6). -/
theorem C8_percentage_change_error :
    (∀ b c : ℚ, pct_change b c = (c - b) / b * 100) ∧
    pct_change 100 120 = 20 ∧
    propagated_error 100 5 120 6 =
      100 * Real.sqrt ((6 / 100) ^ 2 + (120 * 5 / 100 ^ 2) ^ 2) ∧
    |propagated_error 100 5 120 6 - 8.49| < 1 / 100 := by
  refine ⟨fun b c => rfl, by norm_num [pct_change], rfl, ?_⟩
  have h1 : ((6 : ℝ) / 100) ^ 2 + (120 * 5 / 100 ^ 2) ^ 2 = 0.0072 := by norm_num
  rw [propagated_error, h1]
  have hlo : (0.0848 : ℝ) < Real.sqrt 0.0072 :=
    (Real.lt_sqrt (by norm_num)).2 (by norm_num)
  have hhi : Real.sqrt 0.0072 < 0.0849 :=
    (Real.sqrt_lt' (by norm_num)).2 (by norm_num)
  rw [abs_lt]
  constructor <;> linarith

/-- C9: the coefficient of variation is the population standard deviation
over the mean, reported as a percentage: 0 for `[10, 10, 10]` and
approximately 16.3 for `[8, 10, 12]`. -/
theorem C9_coefficient_of_variation :
    (∀ ys : List ℚ, cvOf ys =
      Real.sqrt ((popVariance ys : ℚ) : ℝ) / ((meanQ ys : ℚ) : ℝ)) ∧
    cvOf [10, 10, 10] * 100 = 0 ∧
    |cvOf [8, 10, 12] * 100 - 16.3| < 1 / 20 := by
  refine ⟨fun ys => rfl, ?_, ?_⟩
  · have hv : popVariance [10, 10, 10] = 0 := by norm_num [popVariance, meanQ]
    rw [cvOf, hv]
    simp
  · have hv : popVariance [8, 10, 12] = 8 / 3 := by norm_num [popVariance, meanQ]
    have hm : meanQ [8, 10, 12] = 10 := by norm_num [meanQ]
    rw [cvOf, hv, hm]
    have hcast : (((8 : ℚ) / 3 : ℚ) : ℝ) = 8 / 3 := by push_cast; ring
    have hcast10 : (((10 : ℚ) : ℚ) : ℝ) = 10 := by push_cast; ring
    rw [hcast, hcast10]
    have hlo : (1.632 : ℝ) < Real.sqrt (8 / 3) :=
      (Real.lt_sqrt (by norm_num)).2 (by norm_num)
    have hhi : Real.sqrt (8 / 3) < 1.634 :=
      (Real.sqrt_lt' (by norm_num)).2 (by norm_num)
    rw [abs_lt]
    constructor <;> linarith

end PgBench
